import Mathlib

/-
Verification of the route-resolution and page-discovery logic of
frappe/website/router.py.

The Python module is shallowly embedded: every function of the source file
keeps its name.  External collaborators (the cache store, the database, the
template-engine loader, the markdown renderer, the record's own
route-context builder) are passed in as explicit parameters.  `frappe._dict`
page contexts are modelled by the `PageContext` structure whose optional
fields default to `none` (a missing `_dict` key reads as `None` in Python).
Filesystem directories visited by the scanner are modelled by `ScanDir`,
which records the directory's path relative to the scan root (in the form
`os.path.relpath` produces, with "." for the root itself) together with the
named files it holds; absolute filesystem paths are represented relative to
the application root.
-/

namespace Router

/-! ## String helpers mirroring the Python primitives used by the source -/

/-- Occurrence of `pat` at the head of `hay` (character-list level). -/
def startsWithL : List Char → List Char → Bool
  | _, [] => true
  | [], _ :: _ => false
  | a :: as, b :: bs => a == b && startsWithL as bs

/-- Substring test on character lists, mirroring Python's `pat in hay`. -/
def containsL : List Char → List Char → Bool
  | [], pat => startsWithL [] pat
  | hay@(_ :: t), pat => startsWithL hay pat || containsL t pat

/-- Python's `pat in hay` on strings. -/
def strContains (hay pat : String) : Bool :=
  containsL hay.data pat.data

/-- Python's `hay.endswith(pat)`. -/
def endsWithStr (s pat : String) : Bool :=
  startsWithL s.data.reverse pat.data.reverse

/-- Splits at the last occurrence of `c`, mirroring `s.rsplit(c, 1)`;
`none` when `c` does not occur (where the Python unpacking would raise). -/
def rsplit1L (c : Char) : List Char → Option (List Char × List Char)
  | [] => none
  | a :: t =>
    match rsplit1L c t with
    | some (x, y) => some (a :: x, y)
    | none => if a == c then some ([], t) else none

/-- String version of `rsplit1L`. -/
def rsplit1 (s : String) (c : Char) : Option (String × String) :=
  (rsplit1L c s.data).map (fun p => (⟨p.1⟩, ⟨p.2⟩))

/-- Python's `s.replace(a, b)` for single-character patterns. -/
def replaceChar (s : String) (a b : Char) : String :=
  ⟨s.data.map (fun c => if c == a then b else c)⟩

/-- Python's `s.strip(c)`: removes every leading and trailing run of `c`
(character-list level). -/
def stripCharL (c : Char) (l : List Char) : List Char :=
  ((l.dropWhile (· == c)).reverse.dropWhile (· == c)).reverse

/-- Python's `s.strip(c)` on strings. -/
def stripChar (s : String) (c : Char) : String :=
  ⟨stripCharL c s.data⟩

/-- `os.path.join(a, b)` for POSIX paths: an absolute `b` wins; otherwise
`b` is appended, inserting "/" unless `a` is empty or already ends in "/". -/
def pathJoin (a b : String) : String :=
  if b.data.head? = some '/' then b
  else if a = "" ∨ a.data.getLast? = some '/' then ⟨a.data ++ b.data⟩
  else ⟨a.data ++ '/' :: b.data⟩

/-- `os.path.basename` for POSIX paths: the part after the last "/". -/
def osBasename (s : String) : String :=
  match rsplit1L '/' s.data with
  | some (_, after) => ⟨after⟩
  | none => s

/-- Python's `s.title()` restricted to ASCII letters: a letter directly
after a non-letter is uppercased, every other letter is lowercased. -/
def pyTitleL : List Char → Bool → List Char
  | [], _ => []
  | c :: t, prevCased =>
    if c.isAlpha then (if prevCased then c.toLower else c.toUpper) :: pyTitleL t true
    else c :: pyTitleL t false

/-- Python's `s.title()` on strings (ASCII model). -/
def pyTitle (s : String) : String :=
  ⟨pyTitleL s.data false⟩

/-- The normalised relative path `os.path.relpath(os.path.join(root, rel), …)`
produces for a file `b` inside the directory `a`, where `a = "."` denotes
the root itself. -/
def relJoinNorm (a b : String) : String :=
  if a = "." then b else pathJoin a b

/-- Python dict assignment `m[k] = v` on an insertion-ordered
association list: an existing key keeps its position, a new key is
appended. -/
def dictSet {α : Type} : List (String × α) → String → α → List (String × α)
  | [], k, v => [(k, v)]
  | (k', v') :: t, k, v =>
    if k' == k then (k', v) :: t else (k', v') :: dictSet t k v

/-- Python dict lookup `m.get(k)` on an association list. -/
def dictGet {α : Type} (m : List (String × α)) (k : String) : Option α :=
  (m.find? (fun kv => kv.1 == k)).map (fun kv => kv.2)

/-! ## Data model -/

/-- A `frappe._dict` page context / page descriptor.  Optional fields
default to `none`, matching `_dict.__getattr__` returning `None` for a
missing key; flag fields default to `false`, matching a falsy missing
value. -/
structure PageContext where
  basename : Option String := none
  page_or_generator : Option String := none
  template : String := ""
  name : Option String := none
  page_name : Option String := none
  controller_path : Option String := none
  controller : Option String := none
  source : String := ""
  only_content : Bool := false
  title : Option String := none
  no_breadcrumbs : Bool := false
  no_header : Bool := false
  no_cache : Bool := false
  ref_doctype : Option String := none
  page_title : Option String := none
  doctype : Option String := none
  pathname : Option String := none
deriving DecidableEq, Repr

/-- One value of the generator route map: `{"doctype": …, "name": …,
"modified": …}`. -/
structure GenEntry where
  doctype : String
  name : String
  modified : String
deriving DecidableEq, Repr

/-- The error raised by `make_page_context` on an unknown path
(`frappe.DoesNotExistError`). -/
inductive RouterError
  | DoesNotExistError
deriving DecidableEq, Repr

/-! ## Generator route index (`get_page_context_from_doctypes`) -/

/-- A row of a website-generator doctype's table, with the columns the
query projects plus the remaining field values (used by the visibility
condition). -/
structure GenRow where
  page_name : String
  parent_website_route : Option String
  name : String
  modified : String
  fieldVals : List (String × Int)
deriving DecidableEq, Repr

/-- A doctype registered under the `website_generators` hook, together
with its schema facts and table rows: whether its meta has a
`parent_website_route` field, and the controller's
`website.condition_field`. -/
structure GeneratorDoctype where
  doctype : String
  hasParentField : Bool
  condition_field : Option String
  rows : List GenRow
deriving DecidableEq, Repr

/-- Value of a named column in a row (`0` stands for SQL NULL/absent). -/
def rowField (r : GenRow) (f : String) : Int :=
  ((r.fieldVals.find? (fun kv => kv.1 == f)).map (fun kv => kv.2)).getD 0

/-- The SQL route column:
`concat(ifnull(parent_website_route, ""), if(ifnull(parent_website_route, "")="", "", "/"), page_name)`
when the meta defines `parent_website_route`, else plain `page_name`. -/
def rowRoute (hasParent : Bool) (r : GenRow) : String :=
  if hasParent then
    match r.parent_website_route with
    | none => r.page_name
    | some p => if p = "" then r.page_name else p ++ "/" ++ r.page_name
  else r.page_name

/-- The SQL `where {condition_field}=1` filter; a falsy (absent or empty)
condition field keeps every row. -/
def rowPasses (cf : Option String) (r : GenRow) : Bool :=
  if cf.getD "" = "" then true else rowField r (cf.getD "") == 1

/-- The `(route, {"doctype", "name", "modified"})` pairs one doctype's
query contributes to the route map. -/
def doctypeRoutes (g : GeneratorDoctype) : List (String × GenEntry) :=
  (g.rows.filter (rowPasses g.condition_field)).map
    (fun r => (rowRoute g.hasParentField r, GenEntry.mk g.doctype r.name r.modified))

/-- `get_page_context_from_doctypes`: folds every registered generator
doctype's rows into one route dict via `routes[r.route] = …` (last writer
wins).  The lazy `website_generator_routes` cache around this computation
is modelled by the pure recomputation itself. -/
def get_page_context_from_doctypes (gs : List GeneratorDoctype) : List (String × GenEntry) :=
  gs.foldl
    (fun routes g => (doctypeRoutes g).foldl (fun acc kv => dictSet acc kv.1 kv.2) routes)
    []

/-! ## Route resolution -/

/-- `get_page_context_from_template`: `filter(lambda p: p.page_name==path,
get_pages())` followed by `found[0] if found else None` (Python 2 `filter`
returns a list). -/
def get_page_context_from_template (pages : List PageContext) (path : String) : Option PageContext :=
  match pages.filter (fun p => p.page_name == some path) with
  | [] => none
  | p :: _ => some p

/-- `get_page_context_from_doctype`: looks the path up in the generator
route map and, on a hit, returns
`frappe.get_doc(doctype, name).get_route_context()`; the record's own
context builder is the collaborator `rc`. -/
def get_page_context_from_doctype (gens : List (String × GenEntry))
    (rc : String → String → PageContext) (path : String) : Option PageContext :=
  match gens.find? (fun kv => kv.1 == path) with
  | some kv => some (rc kv.2.doctype kv.2.name)
  | none => none

/-- `resolve_route`: template pages first, generator routes as fallback,
except for the literal paths "about" and "contact" where the order is
flipped. -/
def resolve_route (pages : List PageContext) (gens : List (String × GenEntry))
    (rc : String → String → PageContext) (path : String) : Option PageContext :=
  if ¬ (path = "about" ∨ path = "contact") then
    match get_page_context_from_template pages path with
    | some context => some context
    | none => get_page_context_from_doctype gens rc path
  else
    match get_page_context_from_doctype gens rc path with
    | some context => some context
    | none => get_page_context_from_template pages path

/-- `make_page_context`: resolves the path, raises `DoesNotExistError`
when nothing matched, otherwise copies `ref_doctype`/`page_title` into the
generic `doctype`/`title` fields and records `frappe.local.path`
(parameter `localPath`) as `pathname`. -/
def make_page_context (pages : List PageContext) (gens : List (String × GenEntry))
    (rc : String → String → PageContext) (localPath path : String) :
    Except RouterError PageContext :=
  match resolve_route pages gens rc path with
  | none => Except.error RouterError.DoesNotExistError
  | some context =>
      Except.ok { context with
        doctype := context.ref_doctype
        title := context.page_title
        pathname := some localPath }

/-! ## Page scanning and page-info building -/

/-- One directory visited by `os.walk` under a scan root: `rootRel` is the
scan root relative to the application root ("templates/pages" or "www"),
`relDir` is `os.path.relpath(basepath, path)` ("." at the root itself),
and `files` maps each file name in the directory to its text. -/
structure ScanDir where
  rootRel : String
  relDir : String
  files : List (String × String)
deriving DecidableEq, Repr

/-- `os.path.exists` for a sibling file of the directory. -/
def ScanDir.existsF (d : ScanDir) (fname : String) : Bool :=
  d.files.any (fun f => f.1 == fname)

/-- Reading a file of the directory (Python `open(path).read()`; also the
text the template-engine loader returns for the file's template path). -/
def ScanDir.read (d : ScanDir) (fname : String) : String :=
  ((d.files.find? (fun f => f.1 == fname)).map (fun f => f.2)).getD ""

/-- The app-relative template path
`os.path.relpath(os.path.join(basepath, fname), app_path)`. -/
def templatePathOf (rootRel relDir fname : String) : String :=
  pathJoin rootRel (relJoinNorm relDir fname)

/-- `get_source`: renders markdown for `.md` templates, and for `.html`
and `.md` templates whose rendered source has neither a closing body tag
nor a template-block marker wraps the source in the standard page shell.
Both sibling reads assign the same `js` variable, exactly as in the
source: the `.css` sibling's text overwrites the `.js` sibling's text.
Returns the html together with the `only_content` flag the Python code
sets on the page info. -/
def get_source (md : String → String) (d : ScanDir) (loaded : String)
    (pi : PageContext) : String × Bool :=
  let source := if endsWithStr pi.template ".md" then md loaded else loaded
  if endsWithStr pi.template ".html" || endsWithStr pi.template ".md" then
    if !(strContains source "</body>") && !(strContains source "\x7b% block") then
      let js := if d.existsF ((pi.basename.getD "") ++ ".js")
                then d.read ((pi.basename.getD "") ++ ".js") else ""
      let js := if d.existsF ((pi.basename.getD "") ++ ".css")
                then d.read ((pi.basename.getD "") ++ ".css") else js
      let css := ""
      let html := "\x7b% extends \"templates/web.html\" %\x7d"
      let html := if css ≠ "" then
          html ++ "\n\x7b% block style %\x7d\n<style>\n" ++ css ++ "\n</style>\n\x7b% endblock %\x7d"
        else html
      let html := html ++ "\n\x7b% block page_content %\x7d\n" ++ source ++ "\n\x7b% endblock %\x7d"
      let html := if js ≠ "" then
          html ++ "\n\x7b% block script %\x7d<script>" ++ js ++ "\n</script>\n\x7b% endblock %\x7d"
        else html
      (html, true)
    else (source, pi.only_content)
  else ("", pi.only_content)

/-- Attempted match of the pattern `<!-- title:([^>]*) -->` at the head of
`l`: after the literal `<!-- title:` the group runs up to (but not
through) the first ">", which must be directly preceded by " --". -/
def reTitleAt (l : List Char) : Option (List Char) :=
  if startsWithL l "<!-- title:".data then
    let rest := l.drop 11
    let t := rest.takeWhile (fun c => c != '>')
    if t.length < rest.length ∧ startsWithL t.reverse " --".data.reverse then
      some (t.take (t.length - 3))
    else none
  else none

/-- First match of `re.findall('<!-- title:([^>]*) -->', …)`: the regex
engine scans left to right for the first position admitting a match. -/
def reFindTitle : List Char → Option (List Char)
  | [] => none
  | l@(_ :: t) =>
    match reTitleAt l with
    | some g => some g
    | none => reFindTitle t

/-- The fallback title
`os.path.basename(name).replace('_', ' ').replace('-', ' ').title()`. -/
def titleFromName (nm : String) : String :=
  pyTitle (replaceChar (replaceChar (osBasename nm) '_' ' ') '-' ' ')

/-- The title `load_properties` computes: the stripped first regex match
when the raw source mentions `<!-- title:` (where a mention without a
completed match makes the Python indexing `[0]` raise, modelled as
`none`), else the route-derived fallback title. -/
def lpTitle (pi : PageContext) : Option String :=
  if strContains pi.source "<!-- title:" then
    (reFindTitle pi.source.data).map (fun g => (String.mk g).trim)
  else some (titleFromName (pi.name.getD ""))

/-- `load_properties`: sets the title, appends a title block when the
source has none, reads the `no-breadcrumbs` / `no-header` / `no-cache`
comment directives, and appends a synthesized header block when no
`no-header` directive, no header block and no `<h1` tag are present. -/
def load_properties (pi : PageContext) : Option PageContext :=
  match lpTitle pi with
  | none => none
  | some title =>
    let pi := { pi with title := some title }
    let pi := if strContains pi.source "\x7b% block title %\x7d" = false then
        { pi with source := pi.source ++ "\n\x7b% block title %\x7d" ++ title ++ "\x7b% endblock %\x7d" }
      else pi
    let pi := if strContains pi.source "<!-- no-breadcrumbs -->" then
        { pi with no_breadcrumbs := true }
      else pi
    let pi :=
      if strContains pi.source "<!-- no-header -->" then { pi with no_header := true }
      else if strContains pi.source "\x7b% block header %\x7d" = false ∧
              strContains pi.source "<h1" = false then
        { pi with source := pi.source ++ "\n\x7b% block header %\x7d<h1>" ++ title ++ "</h1>\x7b% endblock %\x7d" }
      else pi
    let pi := if strContains pi.source "<!-- no-cache -->" then { pi with no_cache := true } else pi
    some pi

/-- `get_page_info`: derives the route name and controller module, loads
and transforms the source, and extracts inline properties for
content-only pages.  `none` models an exception escaping the Python
function (a dot-less file name failing the `rsplit` unpacking, or the
title-regex indexing failing inside `load_properties`). -/
def get_page_info (md : String → String) (app : String) (d : ScanDir)
    (fname : String) : Option PageContext :=
  match rsplit1 fname '.' with
  | none => none
  | some (page_name, extn) =>
    let basename0 := if extn = "html" ∨ extn = "md" then page_name else fname
    let template := templatePathOf d.rootRel d.relDir fname
    let basename := if basename0 = "index" ∧ d.relDir ≠ "." then "" else basename0
    let nm := stripChar (stripChar (stripChar (pathJoin d.relDir basename) '/') '.') '/'
    let controller_path := templatePathOf d.rootRel d.relDir (replaceChar page_name '-' '_' ++ ".py")
    let pi : PageContext :=
      { basename := some basename
        page_or_generator := some "Page"
        template := template
        name := some nm
        page_name := some nm
        controller_path := some controller_path }
    let sres := get_source md d (d.read fname) pi
    let pi := { pi with source := sres.1, only_content := sres.2 }
    let controller := app ++ "." ++ (replaceChar controller_path '/' '.').dropRight 3
    (if pi.only_content then load_properties pi else some pi).map
      (fun pi2 => { pi2 with controller := some controller })

/-- The file loop of `get_pages_from_path` over one walked directory: a
`.js`/`.css` file is skipped when `os.path.exists(basepath, fname + '.html')`
holds (note: `fname`, not the base name), and every remaining file with an
eligible extension contributes a page info. -/
def get_pages_from_dir (md : String → String) (app : String) (d : ScanDir) :
    List String → Option (List PageContext)
  | [] => some []
  | fname :: rest =>
    match rsplit1 fname '.' with
    | none => none
    | some (_, extn) =>
      if (extn = "js" ∨ extn = "css") ∧ d.existsF (fname ++ ".html") = true then
        get_pages_from_dir md app d rest
      else if extn = "html" ∨ extn = "xml" ∨ extn = "js" ∨ extn = "css" ∨ extn = "md" then
        match get_page_info md app d fname with
        | none => none
        | some pi => (get_pages_from_dir md app d rest).map (fun l => pi :: l)
      else get_pages_from_dir md app d rest

/-- `get_pages_from_path` over the directories `os.walk` yields for the
scan roots, in walk order (a missing root contributes no directories; the
`__init__.py` bootstrap side effect is not route-relevant). -/
def get_pages_from_path (md : String → String) (app : String) :
    List ScanDir → Option (List PageContext)
  | [] => some []
  | d :: rest =>
    match get_pages_from_dir md app d (d.files.map (fun f => f.1)) with
    | none => none
    | some ps =>
      (get_pages_from_path md app rest).map (fun qs => ps ++ qs)

/-- `get_pages`: concatenates `get_pages_from_path` over each installed
app's "templates/pages" and "www" roots; `dirs` lists the walked
directories of all roots in order.  The lazy `_website_pages` cache around
this computation is modelled by the pure recomputation itself. -/
def get_pages (md : String → String) (app : String) (dirs : List ScanDir) :
    Option (List PageContext) :=
  get_pages_from_path md app dirs

/-! ## Page-context cache (`get_page_context`) -/

/-- The per-path language map stored under the "page_context" cache key. -/
abbrev LangMap := List (String × PageContext)

/-- The "page_context" hash of the cache store: path to language map
(`hget(..., path) or \x7b\x7d` makes a missing path read as the empty map). -/
abbrev Cache := String → LangMap

/-- `frappe.cache().hset("page_context", path, m)`. -/
def hset (c : Cache) (path : String) (m : LangMap) : Cache :=
  fun q => if q == path then m else c q

/-- Modelled from the spec: `can_cache` of frappe.website.utils (not part
of this repository's sources) — caching applies when the global website
cache is enabled and the context does not declare itself non-cacheable. -/
def can_cache (enableCache : Bool) (no_cache : Bool) : Bool :=
  enableCache && ! no_cache

instance : DecidableEq (Except RouterError PageContext) := fun a b =>
  match a, b with
  | .error x, .error y => decidable_of_iff (x = y) (by simp)
  | .ok x, .ok y => decidable_of_iff (x = y) (by simp)
  | .error _, .ok _ => isFalse (fun h => by cases h)
  | .ok _, .error _ => isFalse (fun h => by cases h)

/-- `get_page_context`, generic in the resolver `mpc` standing for
`make_page_context`: on a cache hit the cached context is returned
unchanged; on a miss the path is resolved and the fresh context stored
under the active language only when `can_cache(context.no_cache)` holds.
A cached context is modelled as present-or-absent (every context this
function stores is a non-empty `_dict`, hence truthy). -/
def get_page_context_gen (mpc : String → Except RouterError PageContext)
    (enableCache : Bool) (lang : String) (cache : Cache) (path : String) :
    Except RouterError (PageContext × Cache) :=
  let page_context_cache := cache path
  match (if can_cache enableCache false then dictGet page_context_cache lang else none) with
  | some pc => Except.ok (pc, cache)
  | none =>
    match mpc path with
    | Except.error e => Except.error e
    | Except.ok pc =>
      if can_cache enableCache pc.no_cache then
        Except.ok (pc, hset cache path (dictSet page_context_cache lang pc))
      else Except.ok (pc, cache)

/-- `get_page_context` wired to the real resolver. -/
def get_page_context (pages : List PageContext) (gens : List (String × GenEntry))
    (rc : String → String → PageContext) (localPath : String)
    (enableCache : Bool) (lang : String) (cache : Cache) (path : String) :
    Except RouterError (PageContext × Cache) :=
  get_page_context_gen (make_page_context pages gens rc localPath) enableCache lang cache path

/-! ## Shared concrete collaborators and fixtures used by the witnesses -/

/-- A demo record-side context builder (`get_route_context` collaborator). -/
def rcDemo : String → String → PageContext :=
  fun dt nm => { ref_doctype := some dt, page_title := some (dt ++ ":" ++ nm) }

/-- A file page whose route is "about". -/
def pcAbout : PageContext :=
  { page_name := some "about", name := some "about", template := "www/about.html" }

/-- A file page whose route is "home". -/
def pcHome : PageContext :=
  { page_name := some "home", name := some "home", template := "www/home.html" }

/-- Demo scanned page list. -/
def pagesDemo : List PageContext := [pcAbout, pcHome]

/-- Demo generator route map covering the same two routes. -/
def gensDemo : List (String × GenEntry) :=
  [("about", GenEntry.mk "Web Page" "WP-0001" "m1"),
   ("home", GenEntry.mk "Web Page" "WP-0002" "m2")]

/-! ## C1: resolution order and precedence -/

/-- Claim C1: for every path other than "about"/"contact", `resolve_route`
attempts file-page resolution first and falls back to the generator
route map; for "about"/"contact" the order is flipped; consequently, when
both a file page and a generator route exist for the path, the generator
context wins for "about"/"contact" and the file-page context wins
everywhere else. -/
theorem c1_resolve_order (pages : List PageContext) (gens : List (String × GenEntry))
    (rc : String → String → PageContext) (path : String) :
    (¬ (path = "about" ∨ path = "contact") →
       (∀ c, get_page_context_from_template pages path = some c →
          resolve_route pages gens rc path = some c) ∧
       (get_page_context_from_template pages path = none →
          resolve_route pages gens rc path = get_page_context_from_doctype gens rc path)) ∧
    ((path = "about" ∨ path = "contact") →
       (∀ c, get_page_context_from_doctype gens rc path = some c →
          resolve_route pages gens rc path = some c) ∧
       (get_page_context_from_doctype gens rc path = none →
          resolve_route pages gens rc path = get_page_context_from_template pages path)) ∧
    (∀ cf cg, get_page_context_from_template pages path = some cf →
       get_page_context_from_doctype gens rc path = some cg →
       resolve_route pages gens rc path =
         some (if path = "about" ∨ path = "contact" then cg else cf)) := by
  refine ⟨fun h => ⟨fun c hc => ?_, fun hn => ?_⟩,
          fun h => ⟨fun c hc => ?_, fun hn => ?_⟩, fun cf cg hf hg => ?_⟩
  · unfold resolve_route; rw [if_pos h, hc]
  · unfold resolve_route; rw [if_pos h, hn]
  · unfold resolve_route; rw [if_neg (not_not_intro h), hc]
  · unfold resolve_route; rw [if_neg (not_not_intro h), hn]
  · by_cases h : path = "about" ∨ path = "contact"
    · unfold resolve_route; rw [if_neg (not_not_intro h), hg, if_pos h]
    · unfold resolve_route; rw [if_pos h, hf, if_neg h]

/-- Witness for C1: with both a file page and a generator route for
"about" and for "home", the generator context wins for "about" and the
file page wins for "home". -/
theorem c1_resolve_order_witness :
    resolve_route pagesDemo gensDemo rcDemo "about" = some (rcDemo "Web Page" "WP-0001") ∧
    resolve_route pagesDemo gensDemo rcDemo "home" = some pcHome := by
  constructor
  · have h := (c1_resolve_order pagesDemo gensDemo rcDemo "about").2.2
      pcAbout (rcDemo "Web Page" "WP-0001") (by decide) (by decide)
    rw [if_pos (by decide : ("about" : String) = "about" ∨ ("about" : String) = "contact")] at h
    exact h
  · have h := (c1_resolve_order pagesDemo gensDemo rcDemo "home").2.2
      pcHome (rcDemo "Web Page" "WP-0002") (by decide) (by decide)
    rw [if_neg (by decide : ¬ (("home" : String) = "about" ∨ ("home" : String) = "contact"))] at h
    exact h

/-! ## C2: unknown path raises `DoesNotExistError` -/

/-- Claim C2: a path matching neither a scanned page's route name nor a
key of the generator route map makes `make_page_context` fail with
`DoesNotExistError`, and no context is returned. -/
theorem c2_unknown_path_raises (pages : List PageContext) (gens : List (String × GenEntry))
    (rc : String → String → PageContext) (localPath path : String)
    (h1 : ∀ p ∈ pages, p.page_name ≠ some path)
    (h2 : ∀ kv ∈ gens, kv.1 ≠ path) :
    make_page_context pages gens rc localPath path =
      Except.error RouterError.DoesNotExistError := by
  have ht : get_page_context_from_template pages path = none := by
    unfold get_page_context_from_template
    have hf : pages.filter (fun p => p.page_name == some path) = [] := by
      refine List.filter_eq_nil_iff.mpr fun p hp => ?_
      simp [h1 p hp]
    rw [hf]
  have hd : get_page_context_from_doctype gens rc path = none := by
    unfold get_page_context_from_doctype
    have hf : gens.find? (fun kv => kv.1 == path) = none := by
      refine List.find?_eq_none.mpr fun kv hkv => ?_
      simp [h2 kv hkv]
    rw [hf]
  unfold make_page_context resolve_route
  by_cases h : path = "about" ∨ path = "contact"
  · rw [if_neg (not_not_intro h), hd, ht]
  · rw [if_pos h, ht, hd]

/-- Witness for C2 at a concrete unknown path. -/
theorem c2_unknown_path_raises_witness :
    make_page_context pagesDemo gensDemo rcDemo "missing" "missing" =
      Except.error RouterError.DoesNotExistError :=
  c2_unknown_path_raises pagesDemo gensDemo rcDemo "missing" "missing"
    (by decide) (by decide)

/-! ## C5: duplicate route collision is first-discovered wins, not last -/

/-- A scanned directory holding `page.html` and `page.md`, two files whose
derived route name is "page" in either case. -/
def d5scan : ScanDir := ⟨"www", ".", [("page.html", "aaa"), ("page.md", "bbb")]⟩

/-- Counterexample to claim C5: scanning `d5scan` yields two descriptors
with route name "page" where the last-discovered one is the `.md` page,
yet `get_page_context_from_template` resolves the route to the
first-discovered `.html` page (`found[0]`), so last-discovered does not
win. -/
theorem c5_counterexample :
    ((get_pages (fun s => s) "app" [d5scan]).getD []).map (fun pi => pi.page_name) =
      [some "page", some "page"] ∧
    (((get_pages (fun s => s) "app" [d5scan]).getD []).getLast?).map (fun pi => pi.template) =
      some "www/page.md" ∧
    (get_page_context_from_template ((get_pages (fun s => s) "app" [d5scan]).getD []) "page").map
        (fun pi => pi.template) =
      some "www/page.html" := by decide

/-- Claim C5 as amended: on a route-name collision the FIRST-discovered
descriptor in directory scan order wins; `get_page_context_from_template`
returns the first list entry whose `page_name` matches. -/
theorem c5_first_wins (pages : List PageContext) (path : String) :
    get_page_context_from_template pages path =
      pages.find? (fun p => p.page_name == some path) := by
  induction pages with
  | nil => rfl
  | cons p t ih =>
    unfold get_page_context_from_template at ih ⊢
    by_cases h : (p.page_name == some path) = true
    · rw [List.filter_cons, if_pos h, List.find?_cons_of_pos t h]
    · rw [List.filter_cons, if_neg h, List.find?_cons_of_neg t h]
      exact ih

/-! ## C3: cache hit short-circuits the resolver; store-back condition -/

/-- Claim C3: with caching enabled and a context cached for the
(path, language) pair, `get_page_context` returns that context for EVERY
resolver `mpc` — the resolver is not invoked — and leaves the cache
unchanged; on a miss the resolver's context is returned and it is stored
back exactly when `can_cache` holds of the global switch and the fresh
context's `no_cache` flag. -/
theorem c3_cache_hit_and_store (pages : List PageContext) (gens : List (String × GenEntry))
    (rc : String → String → PageContext) (localPath : String)
    (enableCache : Bool) (lang : String) (cache : Cache) (path : String) :
    (∀ (mpc : String → Except RouterError PageContext) (pc : PageContext),
       can_cache enableCache false = true →
       dictGet (cache path) lang = some pc →
       get_page_context_gen mpc enableCache lang cache path = Except.ok (pc, cache)) ∧
    (∀ pc : PageContext,
       (if can_cache enableCache false then dictGet (cache path) lang else none) = none →
       make_page_context pages gens rc localPath path = Except.ok pc →
       get_page_context pages gens rc localPath enableCache lang cache path =
         Except.ok (pc, if can_cache enableCache pc.no_cache then
                          hset cache path (dictSet (cache path) lang pc)
                        else cache)) := by
  constructor
  · intro mpc pc hcc hhit
    simp only [get_page_context_gen]
    rw [if_pos hcc, hhit]
  · intro pc hmiss hres
    simp only [get_page_context, get_page_context_gen]
    rw [hmiss, hres]
    dsimp only
    by_cases h : can_cache enableCache pc.no_cache = true
    · rw [if_pos h, if_pos h]
    · rw [if_neg h, if_neg h]

/-- A cacheable demo context for the cache claims. -/
def pcCached : PageContext :=
  { page_name := some "home", name := some "home", title := some "Home" }

/-- A demo cache state holding `pcCached` for path "home", language "en". -/
def cacheDemo : Cache :=
  fun p => if p == "home" then [("en", pcCached)] else []

/-- The context `make_page_context` produces for "about" over the demo
fixtures: the generator-backed context with the generic fields filled. -/
def pcAboutResolved : PageContext :=
  { ref_doctype := some "Web Page", page_title := some "Web Page:WP-0001",
    doctype := some "Web Page", title := some "Web Page:WP-0001",
    pathname := some "about" }

/-- Witness for C3: a hit is served from the cache even under a resolver
that always fails, and a miss at "about" resolves and stores back. -/
theorem c3_cache_hit_and_store_witness :
    get_page_context_gen (fun _ => Except.error RouterError.DoesNotExistError)
        true "en" cacheDemo "home" = Except.ok (pcCached, cacheDemo) ∧
    get_page_context pagesDemo gensDemo rcDemo "about" true "en" cacheDemo "about" =
      Except.ok (pcAboutResolved,
        if can_cache true pcAboutResolved.no_cache then
          hset cacheDemo "about" (dictSet (cacheDemo "about") "en" pcAboutResolved)
        else cacheDemo) := by
  constructor
  · exact (c3_cache_hit_and_store pagesDemo gensDemo rcDemo "about" true "en" cacheDemo "home").1
      (fun _ => Except.error RouterError.DoesNotExistError) pcCached rfl (by decide)
  · exact (c3_cache_hit_and_store pagesDemo gensDemo rcDemo "about" true "en" cacheDemo "about").2
      pcAboutResolved (by decide) (by decide)

/-! ## C10: storing under one language preserves the other languages -/

/-- Dict assignment leaves every other key's value unchanged. -/
theorem dictGet_dictSet_ne {α : Type} (m : List (String × α)) (k k2 : String) (v : α)
    (h : k2 ≠ k) : dictGet (dictSet m k v) k2 = dictGet m k2 := by
  induction m with
  | nil =>
    have hne : (k == k2) = false := beq_eq_false_iff_ne.mpr (Ne.symm h)
    simp [dictSet, dictGet, List.find?, hne]
  | cons kv t ih =>
    obtain ⟨k1, v1⟩ := kv
    simp only [dictSet]
    by_cases hk : (k1 == k) = true
    · rw [if_pos hk]
      have h1 : k1 = k := eq_of_beq hk
      subst h1
      have hne : (k1 == k2) = false := beq_eq_false_iff_ne.mpr (Ne.symm h)
      simp [dictGet, List.find?_cons, hne]
    · rw [if_neg hk]
      simp only [dictGet] at ih
      simp only [dictGet, List.find?_cons]
      cases hx : (k1 == k2)
      · simp only [hx]
        exact ih
      · simp [hx]

/-- Claim C10: on a store-back, `get_page_context` reads the whole
per-path language map, updates only the active language's key and writes
the map back: every other language's cached context for the path, and
every other path's map, are unchanged. -/
theorem c10_cache_language_frame (mpc : String → Except RouterError PageContext)
    (enableCache : Bool) (lang : String) (cache : Cache) (path : String) (pc : PageContext)
    (hmiss : (if can_cache enableCache false then dictGet (cache path) lang else none) = none)
    (hres : mpc path = Except.ok pc)
    (hstore : can_cache enableCache pc.no_cache = true) :
    get_page_context_gen mpc enableCache lang cache path =
      Except.ok (pc, hset cache path (dictSet (cache path) lang pc)) ∧
    (∀ lang2, lang2 ≠ lang →
       dictGet (dictSet (cache path) lang pc) lang2 = dictGet (cache path) lang2) ∧
    (∀ path2, path2 ≠ path →
       hset cache path (dictSet (cache path) lang pc) path2 = cache path2) := by
  refine ⟨?_, fun lang2 h2 => dictGet_dictSet_ne _ _ _ _ h2, fun path2 h2 => ?_⟩
  · simp only [get_page_context_gen]
    rw [hmiss, hres]
    dsimp only
    rw [if_pos hstore]
  · simp only [hset]
    rw [if_neg (by simpa using h2)]

/-- A second demo context, stored for language "fr" so the store under
"en" must preserve it. -/
def pcFresh : PageContext :=
  { page_name := some "home", name := some "home", title := some "Accueil" }

/-- A demo cache with a "fr" entry for path "home". -/
def cacheFr : Cache :=
  fun p => if p == "home" then [("fr", pcCached)] else []

/-- Witness for C10: storing the freshly resolved "en" context for "home"
keeps the cached "fr" context for "home" and the map of path "other". -/
theorem c10_cache_language_frame_witness :
    get_page_context_gen (fun _ => Except.ok pcFresh) true "en" cacheFr "home" =
      Except.ok (pcFresh, hset cacheFr "home" (dictSet (cacheFr "home") "en" pcFresh)) ∧
    dictGet (dictSet (cacheFr "home") "en" pcFresh) "fr" = dictGet (cacheFr "home") "fr" ∧
    hset cacheFr "home" (dictSet (cacheFr "home") "en" pcFresh) "other" = cacheFr "other" := by
  obtain ⟨h1, h2, h3⟩ := c10_cache_language_frame (fun _ => Except.ok pcFresh)
    true "en" cacheFr "home" pcFresh (by decide) rfl rfl
  exact ⟨h1, h2 "fr" (by decide), h3 "other" (by decide)⟩

/-! ## C8: generator route computation and visibility condition -/

/-- Claim C8: with a `parent_website_route` field the effective route is
`parent_route/page_name`, an empty or NULL parent yielding just
`page_name`; without the field the route is the page-name column; and a
declared non-empty condition field restricts the contributed index
entries to the rows whose condition column equals 1 (so a row with the
column at 0 is excluded). -/
theorem c8_generator_route_index (g : GeneratorDoctype) :
    (∀ r : GenRow, g.hasParentField = true → r.parent_website_route = none →
       rowRoute g.hasParentField r = r.page_name) ∧
    (∀ r : GenRow, g.hasParentField = true → r.parent_website_route = some "" →
       rowRoute g.hasParentField r = r.page_name) ∧
    (∀ (r : GenRow) (p : String), g.hasParentField = true →
       r.parent_website_route = some p → p ≠ "" →
       rowRoute g.hasParentField r = p ++ "/" ++ r.page_name) ∧
    (∀ r : GenRow, g.hasParentField = false →
       rowRoute g.hasParentField r = r.page_name) ∧
    (g.condition_field = none →
       doctypeRoutes g = g.rows.map
         (fun r => (rowRoute g.hasParentField r, GenEntry.mk g.doctype r.name r.modified))) ∧
    (∀ f, g.condition_field = some f → f ≠ "" →
       doctypeRoutes g = (g.rows.filter (fun r => rowField r f == 1)).map
         (fun r => (rowRoute g.hasParentField r, GenEntry.mk g.doctype r.name r.modified))) := by
  refine ⟨fun r hp hn => ?_, fun r hp he => ?_, fun r p hp hs hne => ?_, fun r hp => ?_,
          fun hc => ?_, fun f hc hne => ?_⟩
  · unfold rowRoute; rw [if_pos hp, hn]
  · unfold rowRoute; rw [if_pos hp, he]; dsimp only; rw [if_pos rfl]
  · unfold rowRoute; rw [if_pos hp, hs]; dsimp only; exact if_neg hne
  · unfold rowRoute; rw [if_neg (by simp [hp])]
  · unfold doctypeRoutes
    rw [show g.rows.filter (rowPasses g.condition_field) = g.rows from
      List.filter_eq_self.mpr (fun r _ => by simp [rowPasses, hc])]
  · unfold doctypeRoutes
    rw [List.filter_congr (fun r _ => ?_)]
    unfold rowPasses
    rw [hc]
    simp [Option.getD, if_neg hne]

/-- The spec's worked example: "Blog Post" rows, one published and one
not. -/
def r8a : GenRow :=
  ⟨"hello-world", some "blog", "BP-0001", "2015-01-01", [("published", 1)]⟩

/-- The unpublished row of the example. -/
def r8b : GenRow :=
  ⟨"draft-post", some "blog", "BP-0002", "2015-01-02", [("published", 0)]⟩

/-- The "Blog Post" generator doctype of the example. -/
def g8 : GeneratorDoctype :=
  ⟨"Blog Post", true, some "published", [r8a, r8b]⟩

/-- Witness for C8 on the spec's example: the published row routes to
"blog/hello-world" and the unpublished row is excluded from the index. -/
theorem c8_generator_route_index_witness :
    rowRoute g8.hasParentField r8a = "blog/hello-world" ∧
    doctypeRoutes g8 =
      [("blog/hello-world", GenEntry.mk "Blog Post" "BP-0001" "2015-01-01")] := by
  have h := c8_generator_route_index g8
  constructor
  · have h3 := h.2.2.1 r8a "blog" rfl rfl (by decide)
    rw [h3]
    decide
  · have h6 := h.2.2.2.2.2 "published" rfl (by decide)
    rw [h6]
    decide

/-! ## Helper lemmas on `get_source` and `load_properties` -/

/-- Closed form of `load_properties` once the title is known: the source
first gains a title block when it has none, then possibly a header block;
the flags are read from the evolving source exactly as the sequential
mutations do. -/
theorem load_properties_closed (q : PageContext) (t : String) (hT : lpTitle q = some t) :
    load_properties q = some (
      let src1 := if strContains q.source "\x7b% block title %\x7d" = false
        then q.source ++ "\n\x7b% block title %\x7d" ++ t ++ "\x7b% endblock %\x7d" else q.source
      let src2 := if strContains src1 "<!-- no-header -->" then src1
        else if strContains src1 "\x7b% block header %\x7d" = false ∧ strContains src1 "<h1" = false
        then src1 ++ "\n\x7b% block header %\x7d<h1>" ++ t ++ "</h1>\x7b% endblock %\x7d" else src1
      { q with
        title := some t
        source := src2
        no_breadcrumbs := if strContains src1 "<!-- no-breadcrumbs -->" then true else q.no_breadcrumbs
        no_header := if strContains src1 "<!-- no-header -->" then true else q.no_header
        no_cache := if strContains src2 "<!-- no-cache -->" then true else q.no_cache }) := by
  unfold load_properties
  rw [hT]
  dsimp only
  repeat' split <;> simp_all

/-- `get_source` on a content-only `.html`/`.md` template: the rendered
source is wrapped in the page shell; the style block never fires (the
`css` variable stays empty) and the script block holds whatever ended up
in the `js` variable. -/
theorem get_source_wraps (md : String → String) (d : ScanDir) (loaded : String) (pi : PageContext)
    (hor : (endsWithStr pi.template ".html" || endsWithStr pi.template ".md") = true)
    (hbody : strContains (if endsWithStr pi.template ".md" then md loaded else loaded) "</body>" = false)
    (hblock : strContains (if endsWithStr pi.template ".md" then md loaded else loaded) "\x7b% block" = false) :
    get_source md d loaded pi =
      (let source := if endsWithStr pi.template ".md" then md loaded else loaded
       let js := if d.existsF ((pi.basename.getD "") ++ ".js")
                 then d.read ((pi.basename.getD "") ++ ".js") else ""
       let js := if d.existsF ((pi.basename.getD "") ++ ".css")
                 then d.read ((pi.basename.getD "") ++ ".css") else js
       let html := "\x7b% extends \"templates/web.html\" %\x7d" ++ "\n\x7b% block page_content %\x7d\n" ++
         source ++ "\n\x7b% endblock %\x7d"
       (if js ≠ "" then
          html ++ "\n\x7b% block script %\x7d<script>" ++ js ++ "\n</script>\n\x7b% endblock %\x7d"
        else html, true)) := by
  unfold get_source
  rw [hor, if_pos rfl, hbody, hblock]
  dsimp only
  simp only [Bool.not_false, Bool.and_self, if_true]
  rw [if_neg (show ¬ ("" : String) ≠ "" from fun hq => hq rfl)]

/-- A successful match of the title regex at a position starts with the
literal `<!-- title:`. -/
theorem reTitleAt_starts (l g : List Char) (h : reTitleAt l = some g) :
    startsWithL l "<!-- title:".data = true := by
  by_cases hs : startsWithL l "<!-- title:".data = true
  · exact hs
  · unfold reTitleAt at h
    rw [if_neg hs] at h
    cases h

/-- When the title regex finds a match somewhere, the raw text contains
the literal `<!-- title:` (so the guard of `load_properties` passes). -/
theorem reFindTitle_contains (l g : List Char) (h : reFindTitle l = some g) :
    containsL l "<!-- title:".data = true := by
  induction l with
  | nil => cases h
  | cons a t ih =>
    unfold reFindTitle at h
    unfold containsL
    cases hA : reTitleAt (a :: t) with
    | some g2 => simp [reTitleAt_starts _ _ hA]
    | none =>
      rw [hA] at h
      simp [ih h]

/-- The observable properties of `load_properties` the spec talks about:
title selection, the appended title block, and the synthesized header
block. -/
theorem load_properties_spec (q pi2 : PageContext) (hLP : load_properties q = some pi2) :
    (strContains q.source "<!-- title:" = false →
       pi2.title = some (titleFromName (q.name.getD ""))) ∧
    (∀ g, reFindTitle q.source.data = some g → pi2.title = some (String.mk g).trim) ∧
    (strContains q.source "\x7b% block title %\x7d" = false →
       ∃ r, pi2.source = q.source ++ "\n\x7b% block title %\x7d" ++ (pi2.title.getD "") ++
         "\x7b% endblock %\x7d" ++ r) ∧
    (∀ s2, s2 = (if strContains q.source "\x7b% block title %\x7d" then q.source
                 else q.source ++ "\n\x7b% block title %\x7d" ++ (pi2.title.getD "") ++
                   "\x7b% endblock %\x7d") →
       strContains s2 "<!-- no-header -->" = false →
       strContains s2 "\x7b% block header %\x7d" = false →
       strContains s2 "<h1" = false →
       pi2.source = s2 ++ "\n\x7b% block header %\x7d<h1>" ++ (pi2.title.getD "") ++
         "</h1>\x7b% endblock %\x7d") := by
  cases hT : lpTitle q with
  | none =>
    unfold load_properties at hLP
    rw [hT] at hLP
    cases hLP
  | some t =>
    rw [load_properties_closed q t hT] at hLP
    injection hLP with hLP
    subst hLP
    dsimp only
    simp only [Option.getD_some]
    refine ⟨?_, ?_, ?_, ?_⟩
    · intro hg
      unfold lpTitle at hT
      rw [hg] at hT
      simp only [Bool.false_eq_true, if_false] at hT
      injection hT with hT
      rw [hT]
    · intro g hg
      have hc : strContains q.source "<!-- title:" = true := by
        unfold strContains
        exact reFindTitle_contains _ _ hg
      unfold lpTitle at hT
      rw [hc] at hT
      simp only [if_true] at hT
      rw [hg] at hT
      injection hT with hT
      rw [← hT]
    · intro hc1
      rw [if_pos hc1]
      split
      · exact ⟨"", by rw [String.append_empty]⟩
      · split
        · exact ⟨"\n\x7b% block header %\x7d<h1>" ++ (t ++ "</h1>\x7b% endblock %\x7d"), by
            simp only [String.append_assoc]⟩
        · exact ⟨"", by rw [String.append_empty]⟩
    · intro s2 hs2 hh1 hh2 hh3
      rcases Bool.eq_false_or_eq_true (strContains q.source "\x7b% block title %\x7d") with htb | htb
      · rw [htb] at hs2
        simp at hs2
        subst hs2
        have e1 : ¬ (strContains q.source "\x7b% block title %\x7d" = false) := by simp [htb]
        rw [if_neg e1]
        have e2 : ¬ (strContains q.source "<!-- no-header -->" = true) := by simp [hh1]
        rw [if_neg e2]
        have e3 : strContains q.source "\x7b% block header %\x7d" = false ∧
            strContains q.source "<h1" = false := ⟨hh2, hh3⟩
        rw [if_pos e3]
      · rw [htb] at hs2
        simp at hs2
        subst hs2
        rw [if_pos htb]
        have e2 : ¬ (strContains (q.source ++ "\n\x7b% block title %\x7d" ++ t ++
            "\x7b% endblock %\x7d") "<!-- no-header -->" = true) := by simp [hh1]
        rw [if_neg e2]
        have e3 : strContains (q.source ++ "\n\x7b% block title %\x7d" ++ t ++
              "\x7b% endblock %\x7d") "\x7b% block header %\x7d" = false ∧
            strContains (q.source ++ "\n\x7b% block title %\x7d" ++ t ++
              "\x7b% endblock %\x7d") "<h1" = false := ⟨hh2, hh3⟩
        rw [if_pos e3]

/-- `load_properties` never touches the identity fields of a page info. -/
theorem load_properties_keeps_name (q pi2 : PageContext) (h : load_properties q = some pi2) :
    pi2.name = q.name ∧ pi2.page_name = q.page_name := by
  cases hT : lpTitle q with
  | none =>
    unfold load_properties at h
    rw [hT] at h
    cases h
  | some t =>
    rw [load_properties_closed q t hT] at h
    injection h with h
    subst h
    exact ⟨rfl, rfl⟩

/-! ## C7: content-only wrapping, title and header synthesis -/

/-- Claim C7: an `.html`/`.md` page whose rendered source has neither a
closing body tag nor a block marker is marked content-only and wrapped in
the standard shell; the title comes from the `<!-- title: X -->` comment
when one matches and otherwise from the route's base name (underscores
and hyphens to spaces, title-cased); a title block is appended when the
source has none; and a header block with a synthesized `<h1>` is appended
when no `no-header` directive, no header block and no `<h1` tag are
present. -/
theorem c7_content_only_pipeline
    (md : String → String) (d : ScanDir) (loaded : String) (pi pi2 : PageContext)
    (hext : endsWithStr pi.template ".html" = true ∨ endsWithStr pi.template ".md" = true)
    (hbody : strContains (if endsWithStr pi.template ".md" then md loaded else loaded) "</body>" = false)
    (hblock : strContains (if endsWithStr pi.template ".md" then md loaded else loaded) "\x7b% block" = false)
    (hLP : load_properties { pi with source := (get_source md d loaded pi).1,
                                     only_content := (get_source md d loaded pi).2 } = some pi2) :
    (get_source md d loaded pi).2 = true ∧
    (∃ rest, (get_source md d loaded pi).1 =
       "\x7b% extends \"templates/web.html\" %\x7d" ++ rest) ∧
    (strContains (get_source md d loaded pi).1 "<!-- title:" = false →
       pi2.title = some (titleFromName (pi.name.getD ""))) ∧
    (∀ g, reFindTitle (get_source md d loaded pi).1.data = some g →
       pi2.title = some (String.mk g).trim) ∧
    (strContains (get_source md d loaded pi).1 "\x7b% block title %\x7d" = false →
       ∃ r, pi2.source = (get_source md d loaded pi).1 ++ "\n\x7b% block title %\x7d" ++
         (pi2.title.getD "") ++ "\x7b% endblock %\x7d" ++ r) ∧
    (∀ s2, s2 = (if strContains (get_source md d loaded pi).1 "\x7b% block title %\x7d" then
                   (get_source md d loaded pi).1
                 else (get_source md d loaded pi).1 ++ "\n\x7b% block title %\x7d" ++
                   (pi2.title.getD "") ++ "\x7b% endblock %\x7d") →
       strContains s2 "<!-- no-header -->" = false →
       strContains s2 "\x7b% block header %\x7d" = false →
       strContains s2 "<h1" = false →
       pi2.source = s2 ++ "\n\x7b% block header %\x7d<h1>" ++ (pi2.title.getD "") ++
         "</h1>\x7b% endblock %\x7d") := by
  have hor : (endsWithStr pi.template ".html" || endsWithStr pi.template ".md") = true := by
    rcases hext with h | h <;> simp [h]
  have hgs := get_source_wraps md d loaded pi hor hbody hblock
  have hspec := load_properties_spec _ pi2 hLP
  refine ⟨?_, ?_, hspec.1, hspec.2.1, hspec.2.2.1, hspec.2.2.2⟩
  · rw [hgs]
  · rw [hgs]
    dsimp only
    simp only [String.append_assoc]
    repeat' split
    all_goals exact ⟨_, rfl⟩

/-- A scanned directory holding a single content-only page. -/
def d7scan : ScanDir := ⟨"www", ".", [("contact-us.html", "hello")]⟩

/-- The page info scaffold for `contact-us.html` as `get_page_info`
derives it. -/
def pi7 : PageContext :=
  { basename := some "contact-us", template := "www/contact-us.html",
    name := some "contact-us", page_name := some "contact-us" }

/-- The page info after `get_source`, as fed into `load_properties`. -/
def q7 : PageContext :=
  { pi7 with source := (get_source (fun s => s) d7scan "hello" pi7).1,
             only_content := (get_source (fun s => s) d7scan "hello" pi7).2 }

/-- Witness for C7: `contact-us.html` containing plain "hello" gets the
fallback title "Contact Us". -/
theorem c7_content_only_pipeline_witness :
    ((load_properties q7).map (fun p => p.title)) = some (some "Contact Us") := by
  cases hEq : load_properties q7 with
  | none => exact absurd hEq (by decide)
  | some pi2 =>
    have h := c7_content_only_pipeline (fun s => s) d7scan "hello" pi7 pi2 (Or.inl rfl)
      (by decide) (by decide) hEq
    have ht := h.2.2.1 (by decide)
    have hm : (some pi2).map (fun p : PageContext => p.title) = some pi2.title := rfl
    rw [hm, ht]
    decide

/-! ## C9: route names of `index` files -/

/-- `dropWhile` does not drop past a head that fails the predicate. -/
theorem dropWhile_cons_of_neg (p : Char → Bool) (a : Char) (l : List Char) (h : p a = false) :
    (a :: l).dropWhile p = a :: l := by
  simp [List.dropWhile_cons, h]

/-- Stripping from the left of a reversed list stops immediately when the
original list does not end in the stripped character. -/
theorem dropWhile_reverse_eq_self (c : Char) (l : List Char) (h2 : l.getLast? ≠ some c) :
    l.reverse.dropWhile (· == c) = l.reverse := by
  cases hr : l.reverse with
  | nil => rfl
  | cons b u =>
    have hb : (b == c) = false := by
      apply beq_eq_false_iff_ne.mpr
      intro he
      apply h2
      rw [← List.head?_reverse, hr, List.head?_cons, he]
    exact dropWhile_cons_of_neg _ b u hb

/-- `strip(c)` is the identity on a list that neither starts nor ends in
`c`. -/
theorem stripCharL_eq_self (c a : Char) (t : List Char) (h1 : (a == c) = false)
    (h2 : (a :: t).getLast? ≠ some c) : stripCharL c (a :: t) = a :: t := by
  unfold stripCharL
  rw [dropWhile_cons_of_neg _ a t h1, dropWhile_reverse_eq_self c (a :: t) h2,
    List.reverse_reverse]

/-- `strip(c)` removes exactly the single trailing `c` from a list that
neither starts nor ends in `c`. -/
theorem stripCharL_append_single (c a : Char) (t : List Char) (h1 : (a == c) = false)
    (h2 : (a :: t).getLast? ≠ some c) : stripCharL c ((a :: t) ++ [c]) = a :: t := by
  unfold stripCharL
  rw [List.cons_append, dropWhile_cons_of_neg _ a (t ++ [c]) h1]
  rw [show (a :: (t ++ [c])).reverse = c :: (a :: t).reverse from by simp]
  rw [List.dropWhile_cons]
  have hcc : (c == c) = true := by simp
  rw [if_pos hcc, dropWhile_reverse_eq_self c (a :: t) h2, List.reverse_reverse]

/-- The `os.path.join` / `strip` chain of `get_page_info` maps an empty
base name inside the directory `relDir` (any relative path without a
leading or trailing slash, as `os.path.relpath` yields) to the route
`strip('/')` of `strip('.')` of `relDir`: the join's trailing slash is
removed and the remaining dot-strip and slash-strip act on `relDir`
itself. -/
theorem index_name_nonroot (relDir : String) (h0 : relDir ≠ "")
    (hh1 : relDir.data.head? ≠ some '/') (ht1 : relDir.data.getLast? ≠ some '/') :
    stripChar (stripChar (stripChar (pathJoin relDir "") '/') '.') '/' =
      stripChar (stripChar relDir '.') '/' := by
  obtain ⟨l⟩ := relDir
  cases l with
  | nil => exact absurd rfl h0
  | cons a t =>
    have ha1 : (a == '/') = false := by
      apply beq_eq_false_iff_ne.mpr
      intro he
      exact hh1 (by rw [show (String.mk (a :: t)).data.head? = some a from rfl, he])
    have hpj : pathJoin (String.mk (a :: t)) "" = String.mk ((a :: t) ++ ['/']) := by
      unfold pathJoin
      rw [if_neg (show ¬ ("" : String).data.head? = some '/' by simp)]
      have hor : ¬ (String.mk (a :: t) = "" ∨ (String.mk (a :: t)).data.getLast? = some '/') := by
        rintro (he | hl)
        · exact h0 he
        · exact ht1 hl
      rw [if_neg hor]
    have s1 : stripChar (String.mk ((a :: t) ++ ['/'])) '/' = String.mk (a :: t) := by
      unfold stripChar
      dsimp only
      rw [stripCharL_append_single '/' a t ha1 ht1]
    rw [hpj, s1]

/-- `strip(c)` is the identity on a string that neither starts nor ends
in `c`. -/
theorem stripChar_eq_self (s : String) (c : Char) (h0 : s ≠ "")
    (h1 : s.data.head? ≠ some c) (h2 : s.data.getLast? ≠ some c) :
    stripChar s c = s := by
  obtain ⟨l⟩ := s
  cases l with
  | nil => exact absurd rfl h0
  | cons a t =>
    have ha : (a == c) = false := by
      apply beq_eq_false_iff_ne.mpr
      intro he
      exact h1 (by rw [show (String.mk (a :: t)).data.head? = some a from rfl, he])
    unfold stripChar
    dsimp only
    rw [stripCharL_eq_self c a t ha h2]

/-- Whichever branch the content-only test takes, the identity fields of
the page info survive. -/
theorem opt_branch_name (piX pi2 : PageContext) (c : Prop) [Decidable c]
    (hopt : (if c then load_properties piX else some piX) = some pi2) :
    pi2.name = piX.name ∧ pi2.page_name = piX.page_name := by
  by_cases hc : c
  · rw [if_pos hc] at hopt
    exact load_properties_keeps_name _ _ hopt
  · rw [if_neg hc] at hopt
    injection hopt with hopt
    subst hopt
    exact ⟨rfl, rfl⟩

/-- The route name `get_page_info` derives, spelled as the source
computes it from the split file name. -/
theorem get_page_info_route (md : String → String) (app : String) (d : ScanDir)
    (fname page_name extn : String)
    (hs : rsplit1 fname '.' = some (page_name, extn)) (pi : PageContext)
    (hpi : get_page_info md app d fname = some pi) :
    pi.name = some (stripChar (stripChar (stripChar (pathJoin d.relDir
      (if (if extn = "html" ∨ extn = "md" then page_name else fname) = "index" ∧ d.relDir ≠ "."
       then "" else (if extn = "html" ∨ extn = "md" then page_name else fname))) '/') '.') '/') ∧
    pi.page_name = pi.name := by
  unfold get_page_info at hpi
  rw [hs] at hpi
  dsimp only at hpi
  obtain ⟨pi2, hopt, hf⟩ := Option.map_eq_some'.mp hpi
  have hk := opt_branch_name _ _ _ hopt
  subst hf
  constructor
  · rw [show (PageContext.name { pi2 with controller := _ }) = pi2.name from rfl, hk.1]
  · rw [show (PageContext.page_name { pi2 with controller := _ }) = pi2.page_name from rfl,
      hk.2, show (PageContext.name { pi2 with controller := _ }) = pi2.name from rfl, hk.1]

/-- The walked hidden directory ".well-known" under the "www" scan
root. -/
def d9dot : ScanDir := ⟨"www", ".well-known", [("index.html", "hello")]⟩

/-- Counterexample to claim C9 as stated: for the hidden directory
`.well-known`, the `.strip('/').strip('.').strip('/')` chain of
`get_page_info` strips the leading dot, so `.well-known/index.html`
derives route name "well-known" — not the directory's relative path
".well-known" — refuting the universal "the derived route name is the
directory's path relative to the scan root". -/
theorem c9_counterexample :
    (get_page_info (fun s => s) "app" d9dot "index.html").map (fun p => p.name) =
      some (some "well-known") ∧
    ("well-known" : String) ≠ ".well-known" := by decide

/-- Claim C9 as amended: an `index.html`/`index.md` file in a directory
other than the scan root derives as its route name the directory's path
relative to the scan root with the base name omitted, normalized by the
code's strip chain — leading and trailing "." runs (then "/" runs) of
the relative path are stripped.  For a directory that neither starts nor
ends in a dot this is the relative path itself, so `blog/index.html`
yields route "blog" (but `.well-known/index.html` yields "well-known");
an index file at the scan root keeps the base name "index". -/
theorem c9_index_route (md : String → String) (app : String) (d : ScanDir) (fname : String)
    (hfn : fname = "index.html" ∨ fname = "index.md") :
    (d.relDir ≠ "." → d.relDir ≠ "" →
       d.relDir.data.head? ≠ some '/' → d.relDir.data.getLast? ≠ some '/' →
       ∀ pi, get_page_info md app d fname = some pi →
         pi.name = some (stripChar (stripChar d.relDir '.') '/') ∧
         pi.page_name = some (stripChar (stripChar d.relDir '.') '/')) ∧
    (d.relDir ≠ "." → d.relDir ≠ "" →
       d.relDir.data.head? ≠ some '/' → d.relDir.data.head? ≠ some '.' →
       d.relDir.data.getLast? ≠ some '/' → d.relDir.data.getLast? ≠ some '.' →
       ∀ pi, get_page_info md app d fname = some pi →
         pi.name = some d.relDir ∧ pi.page_name = some d.relDir) ∧
    (d.relDir = "." → ∀ pi, get_page_info md app d fname = some pi →
       pi.name = some "index" ∧ pi.page_name = some "index") := by
  have hA : d.relDir ≠ "." → d.relDir ≠ "" →
      d.relDir.data.head? ≠ some '/' → d.relDir.data.getLast? ≠ some '/' →
      ∀ pi, get_page_info md app d fname = some pi →
        pi.name = some (stripChar (stripChar d.relDir '.') '/') ∧
        pi.page_name = some (stripChar (stripChar d.relDir '.') '/') := by
    intro hne h0 hh1 ht1 pi hpi
    have hcond : (("index" : String) = "index" ∧ d.relDir ≠ ".") := ⟨rfl, hne⟩
    rcases hfn with hf | hf <;> subst hf
    · have h := get_page_info_route md app d "index.html" "index" "html" (by decide) pi hpi
      rw [show (if ("html" : String) = "html" ∨ ("html" : String) = "md"
            then ("index" : String) else "index.html") = "index" from by decide] at h
      rw [if_pos hcond] at h
      rw [index_name_nonroot d.relDir h0 hh1 ht1] at h
      exact ⟨h.1, by rw [h.2, h.1]⟩
    · have h := get_page_info_route md app d "index.md" "index" "md" (by decide) pi hpi
      rw [show (if ("md" : String) = "html" ∨ ("md" : String) = "md"
            then ("index" : String) else "index.md") = "index" from by decide] at h
      rw [if_pos hcond] at h
      rw [index_name_nonroot d.relDir h0 hh1 ht1] at h
      exact ⟨h.1, by rw [h.2, h.1]⟩
  refine ⟨hA, ?_, ?_⟩
  · intro hne h0 hh1 hh2 ht1 ht2 pi hpi
    have h := hA hne h0 hh1 ht1 pi hpi
    rw [stripChar_eq_self d.relDir '.' h0 hh2 ht2] at h
    rw [stripChar_eq_self d.relDir '/' h0 hh1 ht1] at h
    exact h
  · intro hroot pi hpi
    rcases hfn with hf | hf <;> subst hf
    · have h := get_page_info_route md app d "index.html" "index" "html" (by decide) pi hpi
      rw [hroot] at h
      have hn : pi.name = some "index" := by rw [h.1]; decide
      exact ⟨hn, by rw [h.2, hn]⟩
    · have h := get_page_info_route md app d "index.md" "index" "md" (by decide) pi hpi
      rw [hroot] at h
      have hn : pi.name = some "index" := by rw [h.1]; decide
      exact ⟨hn, by rw [h.2, hn]⟩

/-- The walked directory "blog" under the "www" scan root. -/
def d9scan : ScanDir := ⟨"www", "blog", [("index.html", "hello")]⟩

/-- Witness for the amended C9: `blog/index.html` derives route name
"blog" (dot-free directory), exercising the dot-free conjunct of
`c9_index_route`. -/
theorem c9_index_route_witness :
    (get_page_info (fun s => s) "app" d9scan "index.html").map (fun p => p.name) =
      some (some "blog") := by
  have h := (c9_index_route (fun s => s) "app" d9scan "index.html" (Or.inl rfl)).2.1
    (by decide) (by decide) (by decide) (by decide) (by decide) (by decide)
  cases hEq : get_page_info (fun s => s) "app" d9scan "index.html" with
  | none => exact absurd hEq (by decide)
  | some pi =>
    have hm : (some pi).map (fun p : PageContext => p.name) = some pi.name := rfl
    rw [hm, (h pi hEq).1]
    rfl

/-! ## C6: sibling asset injection under content-only detection -/

/-- A content-only page with both a `.js` and a `.css` sibling. -/
def d6scan : ScanDir :=
  ⟨"www", ".", [("page.html", "hello"), ("page.js", "JSPAYLOAD"), ("page.css", "CSSPAYLOAD")]⟩

/-- The page info scaffold for `page.html` in `d6scan`. -/
def pi6 : PageContext :=
  { basename := some "page", template := "www/page.html",
    name := some "page", page_name := some "page" }

/-- Counterexample to claim C6 as stated: with both siblings present the
CSS text is used, but it lands inside the script block, and no style
block (no `<style>` tag) is emitted at all — so the CSS is not "used for
style injection"; the `.js` sibling's text is indeed not injected. -/
theorem c6_counterexample :
    strContains (get_source (fun s => s) d6scan "hello" pi6).1 "CSSPAYLOAD" = true ∧
    strContains (get_source (fun s => s) d6scan "hello" pi6).1 "<style>" = false ∧
    strContains (get_source (fun s => s) d6scan "hello" pi6).1 "\x7b% block style %\x7d" = false ∧
    strContains (get_source (fun s => s) d6scan "hello" pi6).1 "<script>CSSPAYLOAD" = true ∧
    strContains (get_source (fun s => s) d6scan "hello" pi6).1 "JSPAYLOAD" = false := by decide

/-- Claim C6 as amended: under content-only detection, when a `.css`
sibling with non-empty text exists, the generated shell is exactly the
extends line, the page-content block, and a SCRIPT block holding the CSS
text — the style block is never emitted (the `css` variable stays empty),
and the `.js` sibling's text is not injected regardless of its
presence. -/
theorem c6_css_into_script (md : String → String) (d : ScanDir) (loaded : String)
    (pi : PageContext)
    (hext : endsWithStr pi.template ".html" = true ∨ endsWithStr pi.template ".md" = true)
    (hbody : strContains (if endsWithStr pi.template ".md" then md loaded else loaded) "</body>" = false)
    (hblock : strContains (if endsWithStr pi.template ".md" then md loaded else loaded) "\x7b% block" = false)
    (hcss : d.existsF ((pi.basename.getD "") ++ ".css") = true)
    (hne : d.read ((pi.basename.getD "") ++ ".css") ≠ "") :
    (get_source md d loaded pi).1 =
      "\x7b% extends \"templates/web.html\" %\x7d" ++ "\n\x7b% block page_content %\x7d\n" ++
        (if endsWithStr pi.template ".md" then md loaded else loaded) ++ "\n\x7b% endblock %\x7d" ++
        "\n\x7b% block script %\x7d<script>" ++ d.read ((pi.basename.getD "") ++ ".css") ++
        "\n</script>\n\x7b% endblock %\x7d" := by
  have hor : (endsWithStr pi.template ".html" || endsWithStr pi.template ".md") = true := by
    rcases hext with h | h <;> simp [h]
  rw [get_source_wraps md d loaded pi hor hbody hblock]
  dsimp only
  rw [hcss, if_pos rfl, if_pos hne]

/-- Witness for the amended C6 at the concrete fixture. -/
theorem c6_css_into_script_witness :
    (get_source (fun s => s) d6scan "hello" pi6).1 =
      "\x7b% extends \"templates/web.html\" %\x7d" ++ "\n\x7b% block page_content %\x7d\n" ++
        (if endsWithStr pi6.template ".md" then "hello" else "hello") ++ "\n\x7b% endblock %\x7d" ++
        "\n\x7b% block script %\x7d<script>" ++ d6scan.read ((pi6.basename.getD "") ++ ".css") ++
        "\n</script>\n\x7b% endblock %\x7d" :=
  c6_css_into_script (fun s => s) d6scan "hello" pi6 (Or.inl rfl) (by decide) (by decide)
    (by decide) (by decide)

/-! ## C4: the sidecar-skip check tests the wrong file name -/

/-- A directory holding `page.html` and its `page.js` sidecar. -/
def d4scan : ScanDir := ⟨"www", ".", [("page.html", "hello"), ("page.js", "JSPAYLOAD4")]⟩

/-- Claim C4 fails on the code: the skip test checks for
`fname + '.html'` — here `page.js.html`, which does not exist — instead
of the same base name with `.html`, so `page.js` is NOT skipped although
`page.html` exists, and it becomes a standalone page with route name
"page.js".  This contradicts the code's own comment ("js, css is linked
to html, skip") and the sidecar-merge logic of `get_source`, which links
siblings by base name. -/
theorem c4_js_skip_check_behavior :
    d4scan.existsF "page.html" = true ∧
    d4scan.existsF "page.js.html" = false ∧
    (get_pages (fun s => s) "app" [d4scan]).map (fun l => l.map (fun p => p.page_name)) =
      some [some "page", some "page.js"] := by decide

end Router
